import Mathlib

/-!
Verification of `src/pollers/poll_buffer.rs`: the demand-gated long-poll
buffering primitive (`LongPollBuffer<T>`) and the racing composite poller
(`WorkflowTaskPoller`).

The Rust code is concurrent tokio code; we embed it as a small-step
transition system.  Each background worker task spawned by
`LongPollBuffer::new` is modelled by a `WorkerState` recording which await
point of its loop body it is suspended at; the shared state (the
`polls_requested` semaphore, the `watch` shutdown channel, the bounded
`mpsc` result queue) lives in a `BufferState`.  The nondeterminism of the
tokio scheduler and of `tokio::select!` (which polls its branches in random
order, so whenever several branches are ready any of them may win) becomes
nondeterminism of the `Step` relation.

Semantics of the tokio primitives used by the source, reflected below:
* `Semaphore::acquire` yields a `SemaphorePermit`; DROPPING the permit
  returns it to the semaphore, while `forget()` consumes it permanently.
  In the worker loop `sp.forget()` runs only after `pf()` completed, so
  when the shutdown branch of the second `select!` wins, the `continue`
  drops `sp` and the permit is re-credited to `polls_requested`.
* `mpsc::channel(buffer_size)` holds at most `buffer_size` messages;
  `send().await` suspends while the buffer is full; `recv().await` returns
  `None` exactly when every `Sender` has been dropped and the buffer is
  empty.  `channel` panics when `buffer_size == 0`.
* `watch`: `shutdown.changed()` resolves once the value changes past the
  version the receiver has seen; `*shutdown.borrow()` reads the current
  value.  Every `continue` of the worker loop re-reads the flag at the top
  of the loop, so a consumed change notification is never lost.

Senders of the result queue: each worker task owns one clone of `tx`,
dropped when the task exits; the original `tx` is dropped when `new`
returns.  Hence the channel is closed exactly when every worker has
exited.
-/

namespace PollBuffer

/-- `pollers::Result<T>`: the outcome of one external poll call, either a
success payload or an error (`tonic::Status` in the source, abstracted to
`E`). -/
inductive PollOutcome (E T : Type) where
  | ok (t : T)
  | err (e : E)
deriving DecidableEq

/-- The suspension point a worker task (one iteration of the loop in
`LongPollBuffer::new`) is currently at. -/
inductive WorkerState (E T : Type) where
  /-- At the top of the loop, about to run `if *shutdown.borrow() { break; }`. -/
  | checkShutdown
  /-- Inside the first `select!`: waiting on `polls_requested.acquire()`
  racing `shutdown.changed()`. -/
  | acquiring
  /-- Permit held, inside the second `select!`: `pf()` in flight racing
  `shutdown.changed()`. -/
  | polling
  /-- Poll finished with outcome `r`, permit forgotten, suspended at
  `tx.send(r).await`. -/
  | sending (r : PollOutcome E T)
  /-- The task has exited (its `tx` clone is dropped, its join handle has
  completed). -/
  | done
deriving DecidableEq

/-- The shared state of one `LongPollBuffer` together with its worker pool.
`demand` is the permit count of `polls_requested`; `queue` the buffered
contents of the bounded `mpsc` channel (FIFO, head = oldest); `shutdown`
the value in the `watch` channel.  `started`, `pollCalls` and `aborted`
are history counters (number of `pf()` invocations ever begun, number of
`Poll()` calls made, number of poll results discarded by the shutdown
race); they instrument the model and influence no transition. -/
structure BufferState (E T : Type) where
  demand : Nat
  shutdown : Bool
  queue : List (PollOutcome E T)
  workers : List (WorkerState E T)
  started : Nat
  pollCalls : Nat
  aborted : Nat
deriving DecidableEq

/-- Whether a worker task has exited. -/
def WorkerState.isDone : WorkerState E T → Bool
  | .done => true
  | _ => false

/-- Whether a worker currently has a `pf()` call in flight. -/
def WorkerState.isPolling : WorkerState E T → Bool
  | .polling => true
  | _ => false

/-- All worker tasks have exited: every `tx` clone is dropped (the channel
is closed) and every join handle has completed (`shutdown` can return). -/
def allWorkersDone (s : BufferState E T) : Bool :=
  s.workers.all WorkerState.isDone

/-- Number of external poll calls currently in flight. -/
def inFlight (s : BufferState E T) : Nat :=
  s.workers.countP WorkerState.isPolling

/-- The state-changing prefix of `LongPollBuffer::poll`:
`self.polls_requested.add_permits(1)` (and we count the call). -/
def addPermit (s : BufferState E T) : BufferState E T :=
  { s with demand := s.demand + 1, pollCalls := s.pollCalls + 1 }

/-- One scheduler step, with the result-queue capacity `cap` fixed at
construction time.  Constructors follow the source line by line. -/
inductive Step (cap : Nat) : BufferState E T → BufferState E T → Prop where
  /-- A consumer runs the synchronous start of `poll`:
  `self.polls_requested.add_permits(1)`. -/
  | pollRequest (s : BufferState E T) :
      Step cap s (addPermit s)
  /-- `notify_shutdown` (or the first line of `shutdown`):
  `self.shutdown.send(true)`. -/
  | notifyShutdown (s : BufferState E T) :
      Step cap s { s with shutdown := true }
  /-- Top of the worker loop with the flag set: `break`; the task ends and
  its `tx` clone is dropped. -/
  | workerExit (s : BufferState E T) (i : Nat)
      (h : s.workers.get? i = some .checkShutdown) (hs : s.shutdown = true) :
      Step cap s { s with workers := s.workers.set i .done }
  /-- Top of the worker loop with the flag clear: enter the first
  `select!`. -/
  | workerLoop (s : BufferState E T) (i : Nat)
      (h : s.workers.get? i = some .checkShutdown) (hs : s.shutdown = false) :
      Step cap s { s with workers := s.workers.set i .acquiring }
  /-- The `polls_requested.acquire()` branch wins the first `select!`: one
  permit is taken and `pf()` begins. -/
  | acquirePoll (s : BufferState E T) (i : Nat)
      (h : s.workers.get? i = some .acquiring) (hd : 0 < s.demand) :
      Step cap s { s with demand := s.demand - 1, started := s.started + 1,
                          workers := s.workers.set i .polling }
  /-- The `shutdown.changed()` branch wins the first `select!`: `continue`
  (no permit was taken). -/
  | acquireShutdown (s : BufferState E T) (i : Nat)
      (h : s.workers.get? i = some .acquiring) (hs : s.shutdown = true) :
      Step cap s { s with workers := s.workers.set i .checkShutdown }
  /-- `pf()` resolves first in the second `select!` with outcome `r` (chosen
  by the environment); `sp.forget()` consumes the permit for good. -/
  | pollComplete (s : BufferState E T) (i : Nat) (r : PollOutcome E T)
      (h : s.workers.get? i = some .polling) :
      Step cap s { s with workers := s.workers.set i (.sending r) }
  /-- `shutdown.changed()` resolves first in the second `select!`: `continue`
  drops the `SemaphorePermit` `sp`, which re-credits the permit to
  `polls_requested`; the poll result is discarded. -/
  | pollAborted (s : BufferState E T) (i : Nat)
      (h : s.workers.get? i = some .polling) (hs : s.shutdown = true) :
      Step cap s { s with demand := s.demand + 1, aborted := s.aborted + 1,
                          workers := s.workers.set i .checkShutdown }
  /-- `tx.send(r).await` resumes: possible only while the buffer holds fewer
  than `cap` messages; the outcome is enqueued and the loop restarts. -/
  | sendOk (s : BufferState E T) (i : Nat) (r : PollOutcome E T)
      (h : s.workers.get? i = some (.sending r)) (hq : s.queue.length < cap) :
      Step cap s { s with queue := s.queue ++ [r],
                          workers := s.workers.set i .checkShutdown }

/-- Reachability under the scheduler. -/
def Reach (cap : Nat) : BufferState E T → BufferState E T → Prop :=
  Relation.ReflTransGen (Step cap)

/-- State produced by `LongPollBuffer::new(poll_fn, c, cap)` just after it
returns: no permits, flag clear, empty buffer, `c` workers each at the top
of its loop. -/
def initState (E T : Type) (c : Nat) : BufferState E T :=
  { demand := 0, shutdown := false, queue := [],
    workers := List.replicate c .checkShutdown,
    started := 0, pollCalls := 0, aborted := 0 }

/-- `LongPollBuffer::new(poll_fn, concurrent_pollers, buffer_size)`.
`mpsc::channel(buffer_size)` asserts `buffer_size > 0`, so construction
panics (`none`) when `buffer_size == 0`; otherwise it spawns
`concurrent_pollers` workers and returns the handle. -/
def newLongPollBuffer (E T : Type) (concurrentPollers bufferSize : Nat) :
    Option (BufferState E T) :=
  if bufferSize = 0 then none else some (initState E T concurrentPollers)

/-- `Receiver::recv().await` on the buffered-polls channel, one attempt:
`some (some r, s')` when a message is dequeued, `some (none, s)` when the
channel is closed (all senders dropped) and drained, `none` when the call
stays suspended. -/
def tryRecv (s : BufferState E T) : Option (Option (PollOutcome E T) × BufferState E T) :=
  match s.queue with
  | r :: rest => some (some r, { s with queue := rest })
  | [] => if allWorkersDone s then some (none, s) else none

/-- `LongPollBuffer::poll`: add one permit to `polls_requested`, then (under
the `buffered_polls` mutex) receive from the queue. -/
def bufferPoll (s : BufferState E T) : Option (Option (PollOutcome E T) × BufferState E T) :=
  tryRecv (addPermit s)

/-- `WorkflowTaskPoller`: a mandatory normal poller and an optional sticky
poller. -/
structure WorkflowTaskPoller (E T : Type) where
  normal : BufferState E T
  sticky : Option (BufferState E T)

/-- `WorkflowTaskPoller::poll`.  With both children present the source
races `self.normal_poller.poll()` against `sq.poll()` in a `select!`: both
futures are polled, so both children execute their `add_permits(1)` before
suspending in `recv()`; the scheduler's choice of winner is the oracle
`stickyWins`.  The loser's future is dropped at its `recv` suspension
point (its added permit stays).  Without a sticky child, delegate to the
normal child. -/
def wtpPoll (w : WorkflowTaskPoller E T) (stickyWins : Bool) :
    Option (Option (PollOutcome E T) × WorkflowTaskPoller E T) :=
  match w.sticky with
  | none =>
      match bufferPoll w.normal with
      | some (res, n) => some (res, ⟨n, none⟩)
      | none => none
  | some st =>
      if stickyWins then
        match tryRecv (addPermit st) with
        | some (res, st2) => some (res, ⟨addPermit w.normal, some st2⟩)
        | none => none
      else
        match tryRecv (addPermit w.normal) with
        | some (res, n) => some (res, ⟨n, some (addPermit st)⟩)
        | none => none

/-- `WorkflowTaskPoller::notify_shutdown`: forward to the normal poller and,
if present, the sticky poller. -/
def wtpNotifyShutdown (w : WorkflowTaskPoller E T) : WorkflowTaskPoller E T :=
  ⟨{ w.normal with shutdown := true },
   w.sticky.map fun st => { st with shutdown := true }⟩

/-- Completion condition of `WorkflowTaskPoller::shutdown`: the normal
poller has drained, then the sticky one (when present). -/
def wtpShutdownComplete (w : WorkflowTaskPoller E T) : Bool :=
  allWorkersDone w.normal &&
    match w.sticky with
    | none => true
    | some st => allWorkersDone st

/-! ## General lemmas about the transition system -/

theorem reach_invariant {cap : Nat} {P : BufferState E T → Prop}
    {a b : BufferState E T} (h : Reach cap a b) (h0 : P a)
    (hstep : ∀ s s', P s → Step cap s s' → P s') : P b := by
  induction h with
  | refl => exact h0
  | tail _ h2 ih => exact hstep _ _ ih h2

theorem Step.shutdown_mono {cap : Nat} {s s' : BufferState E T}
    (h : Step cap s s') (hs : s.shutdown = true) : s'.shutdown = true := by
  cases h <;> simp_all [addPermit]

theorem Step.workers_length {cap : Nat} {s s' : BufferState E T}
    (h : Step cap s s') : s'.workers.length = s.workers.length := by
  cases h <;> simp [addPermit, List.length_set]

theorem Step.queue_length_le {cap : Nat} {s s' : BufferState E T}
    (h : Step cap s s') (hq : s.queue.length ≤ cap) : s'.queue.length ≤ cap := by
  cases h <;> simp_all [addPermit] <;> omega

/-- Inversion: the only step that moves a worker out of the `sending r`
suspension point is its `tx.send(r).await` resuming, which requires room in
the buffer and enqueues exactly `r`. -/
theorem step_sending_inv {cap : Nat} {s s' : BufferState E T} {i : Nat}
    {r : PollOutcome E T} (h : Step cap s s')
    (hw : s.workers.get? i = some (.sending r))
    (hch : s'.workers.get? i ≠ some (.sending r)) :
    s.queue.length < cap ∧
    s' = { s with queue := s.queue ++ [r],
                  workers := s.workers.set i .checkShutdown } := by
  cases h with
  | pollRequest => exact absurd hw hch
  | notifyShutdown => exact absurd hw hch
  | workerExit j hj hs =>
    rcases eq_or_ne j i with rfl | hne
    · rw [hj] at hw; simp at hw
    · rw [List.get?_set_ne _ _ hne] at hch; exact absurd hw hch
  | workerLoop j hj hs =>
    rcases eq_or_ne j i with rfl | hne
    · rw [hj] at hw; simp at hw
    · rw [List.get?_set_ne _ _ hne] at hch; exact absurd hw hch
  | acquirePoll j hj hd =>
    rcases eq_or_ne j i with rfl | hne
    · rw [hj] at hw; simp at hw
    · rw [List.get?_set_ne _ _ hne] at hch; exact absurd hw hch
  | acquireShutdown j hj hs =>
    rcases eq_or_ne j i with rfl | hne
    · rw [hj] at hw; simp at hw
    · rw [List.get?_set_ne _ _ hne] at hch; exact absurd hw hch
  | pollComplete j r2 hj =>
    rcases eq_or_ne j i with rfl | hne
    · rw [hj] at hw; simp at hw
    · rw [List.get?_set_ne _ _ hne] at hch; exact absurd hw hch
  | pollAborted j hj hs =>
    rcases eq_or_ne j i with rfl | hne
    · rw [hj] at hw; simp at hw
    · rw [List.get?_set_ne _ _ hne] at hch; exact absurd hw hch
  | sendOk j r2 hj hq =>
    rcases eq_or_ne j i with rfl | hne
    · rw [hj] at hw
      have hr : r2 = r := by
        have := Option.some.inj hw
        exact WorkerState.sending.inj this
      subst hr
      exact ⟨hq, rfl⟩
    · rw [List.get?_set_ne _ _ hne] at hch; exact absurd hw hch

/-- Inversion: the only step that takes a worker from `polling` straight back
to the top of the loop is the shutdown branch winning the second `select!`;
dropping the permit re-credits the demand counter. -/
theorem step_polling_abort_inv {cap : Nat} {s s' : BufferState E T} {i : Nat}
    (h : Step cap s s') (hw : s.workers.get? i = some .polling)
    (hch : s'.workers.get? i = some .checkShutdown) :
    s.shutdown = true ∧
    s' = { s with demand := s.demand + 1, aborted := s.aborted + 1,
                  workers := s.workers.set i .checkShutdown } := by
  have hlt : i < s.workers.length := by
    rcases List.get?_eq_some.mp hw with ⟨h1, _⟩
    exact h1
  cases h with
  | pollRequest => rw [show (addPermit s).workers = s.workers from rfl, hw] at hch; simp at hch
  | notifyShutdown =>
    rw [show ({ s with shutdown := true } : BufferState E T).workers = s.workers from rfl, hw] at hch
    simp at hch
  | workerExit j hj hs =>
    rcases eq_or_ne j i with rfl | hne
    · rw [hj] at hw; simp at hw
    · rw [List.get?_set_ne _ _ hne, hw] at hch; simp at hch
  | workerLoop j hj hs =>
    rcases eq_or_ne j i with rfl | hne
    · rw [hj] at hw; simp at hw
    · rw [List.get?_set_ne _ _ hne, hw] at hch; simp at hch
  | acquirePoll j hj hd =>
    rcases eq_or_ne j i with rfl | hne
    · rw [hj] at hw; simp at hw
    · rw [List.get?_set_ne _ _ hne, hw] at hch; simp at hch
  | acquireShutdown j hj hs =>
    rcases eq_or_ne j i with rfl | hne
    · rw [hj] at hw; simp at hw
    · rw [List.get?_set_ne _ _ hne, hw] at hch; simp at hch
  | pollComplete j r2 hj =>
    rcases eq_or_ne j i with rfl | hne
    · rw [List.get?_set_eq_of_lt _ hlt] at hch; simp at hch
    · rw [List.get?_set_ne _ _ hne, hw] at hch; simp at hch
  | pollAborted j hj hs =>
    rcases eq_or_ne j i with rfl | hne
    · exact ⟨hs, rfl⟩
    · rw [List.get?_set_ne _ _ hne, hw] at hch; simp at hch
  | sendOk j r2 hj hq =>
    rcases eq_or_ne j i with rfl | hne
    · rw [hj] at hw; simp at hw
    · rw [List.get?_set_ne _ _ hne, hw] at hch; simp at hch

theorem reach_workers_length {cap c : Nat} {s : BufferState E T}
    (h : Reach cap (initState E T c) s) : s.workers.length = c := by
  refine reach_invariant (P := fun t => t.workers.length = c) h ?_ ?_
  · simp [initState]
  · intro a b hlen hstep
    rw [hstep.workers_length, hlen]

theorem reach_queue_le {cap c : Nat} {s : BufferState E T}
    (h : Reach cap (initState E T c) s) : s.queue.length ≤ cap := by
  refine reach_invariant (P := fun t => t.queue.length ≤ cap) h ?_ ?_
  · simp [initState]
  · exact fun a b hP hstep => hstep.queue_length_le hP

/-- While shutdown has never been signalled, no permit has ever been
refunded, so the permit accounting balances: permits available plus polls
started equals `Poll()` calls made. -/
theorem reach_no_shutdown_balance {cap c : Nat} {s : BufferState E T}
    (h : Reach cap (initState E T c) s) (hs : s.shutdown = false) :
    s.demand + s.started = s.pollCalls := by
  have H : s.shutdown = false → s.demand + s.started = s.pollCalls := by
    refine reach_invariant
      (P := fun t => t.shutdown = false → t.demand + t.started = t.pollCalls) h ?_ ?_
    · intro _; rfl
    · intro a b hP hstep
      cases hstep with
      | pollRequest =>
        intro hb
        have h1 := hP hb
        show a.demand + 1 + a.started = a.pollCalls + 1
        omega
      | notifyShutdown => intro hb; simp at hb
      | workerExit j hj hs2 => exact hP
      | workerLoop j hj hs2 => exact hP
      | acquirePoll j hj hd =>
        intro hb
        have h1 := hP hb
        show a.demand - 1 + (a.started + 1) = a.pollCalls
        omega
      | acquireShutdown j hj hs2 => exact hP
      | pollComplete j r hj => exact hP
      | pollAborted j hj hs2 =>
        intro hb
        simp only at hb
        rw [hs2] at hb
        simp at hb
      | sendOk j r hj hq => exact hP
  exact H hs

/-- If `Poll()` has never been called there is no demand, no poll was ever
started, and every worker still sits at a demand-free suspension point. -/
theorem reach_pollCalls_zero {cap c : Nat} {s : BufferState E T}
    (h : Reach cap (initState E T c) s) (hp : s.pollCalls = 0) :
    s.demand = 0 ∧ s.started = 0 ∧
      ∀ w ∈ s.workers,
        w = WorkerState.checkShutdown ∨ w = WorkerState.acquiring ∨ w = WorkerState.done := by
  have H : s.pollCalls = 0 → s.demand = 0 ∧ s.started = 0 ∧
      ∀ w ∈ s.workers,
        w = WorkerState.checkShutdown ∨ w = WorkerState.acquiring ∨ w = WorkerState.done := by
    refine reach_invariant
      (P := fun t => t.pollCalls = 0 → t.demand = 0 ∧ t.started = 0 ∧
        ∀ w ∈ t.workers,
          w = WorkerState.checkShutdown ∨ w = WorkerState.acquiring ∨ w = WorkerState.done)
      h ?_ ?_
    · intro _
      refine ⟨rfl, rfl, ?_⟩
      intro w hw
      exact Or.inl (List.eq_of_mem_replicate hw)
    · intro a b hP hstep
      cases hstep with
      | pollRequest =>
        intro hb
        exact absurd hb (by simp [addPermit])
      | notifyShutdown => exact hP
      | workerExit j hj hs2 =>
        intro hb
        obtain ⟨h1, h2, h3⟩ := hP hb
        refine ⟨h1, h2, ?_⟩
        intro w hw
        rcases List.mem_or_eq_of_mem_set hw with hm | rfl
        · exact h3 w hm
        · exact Or.inr (Or.inr rfl)
      | workerLoop j hj hs2 =>
        intro hb
        obtain ⟨h1, h2, h3⟩ := hP hb
        refine ⟨h1, h2, ?_⟩
        intro w hw
        rcases List.mem_or_eq_of_mem_set hw with hm | rfl
        · exact h3 w hm
        · exact Or.inr (Or.inl rfl)
      | acquirePoll j hj hd =>
        intro hb
        obtain ⟨h1, _, _⟩ := hP hb
        rw [h1] at hd
        exact absurd hd (by simp)
      | acquireShutdown j hj hs2 =>
        intro hb
        obtain ⟨h1, h2, h3⟩ := hP hb
        refine ⟨h1, h2, ?_⟩
        intro w hw
        rcases List.mem_or_eq_of_mem_set hw with hm | rfl
        · exact h3 w hm
        · exact Or.inl rfl
      | pollComplete j r hj =>
        intro hb
        obtain ⟨_, _, h3⟩ := hP hb
        rcases h3 _ (List.get?_mem hj) with h4 | h4 | h4 <;> simp at h4
      | pollAborted j hj hs2 =>
        intro hb
        obtain ⟨_, _, h3⟩ := hP hb
        rcases h3 _ (List.get?_mem hj) with h4 | h4 | h4 <;> simp at h4
      | sendOk j r hj hq =>
        intro hb
        obtain ⟨_, _, h3⟩ := hP hb
        rcases h3 _ (List.get?_mem hj) with h4 | h4 | h4 <;> simp at h4
  exact H hp

/-- A worker exits its loop only after observing the shutdown flag. -/
theorem reach_done_shutdown {cap c : Nat} {s : BufferState E T}
    (h : Reach cap (initState E T c) s) {w : WorkerState E T}
    (hw : w ∈ s.workers) (hd : w.isDone = true) : s.shutdown = true := by
  have H : (∃ w ∈ s.workers, w.isDone = true) → s.shutdown = true := by
    refine reach_invariant
      (P := fun t => (∃ w ∈ t.workers, w.isDone = true) → t.shutdown = true) h ?_ ?_
    · rintro ⟨w, hm, hdone⟩
      rw [List.eq_of_mem_replicate hm] at hdone
      simp [WorkerState.isDone] at hdone
    · intro a b hP hstep
      cases hstep with
      | pollRequest => exact hP
      | notifyShutdown => intro _; rfl
      | workerExit j hj hs2 => intro _; exact hs2
      | workerLoop j hj hs2 =>
        rintro ⟨w, hm, hdone⟩
        rcases List.mem_or_eq_of_mem_set hm with hm2 | rfl
        · exact hP ⟨w, hm2, hdone⟩
        · simp [WorkerState.isDone] at hdone
      | acquirePoll j hj hd2 =>
        rintro ⟨w, hm, hdone⟩
        rcases List.mem_or_eq_of_mem_set hm with hm2 | rfl
        · exact hP ⟨w, hm2, hdone⟩
        · simp [WorkerState.isDone] at hdone
      | acquireShutdown j hj hs2 => intro _; exact hs2
      | pollComplete j r hj =>
        rintro ⟨w, hm, hdone⟩
        rcases List.mem_or_eq_of_mem_set hm with hm2 | rfl
        · exact hP ⟨w, hm2, hdone⟩
        · simp [WorkerState.isDone] at hdone
      | pollAborted j hj hs2 => intro _; exact hs2
      | sendOk j r hj hq =>
        rintro ⟨w, hm, hdone⟩
        rcases List.mem_or_eq_of_mem_set hm with hm2 | rfl
        · exact hP ⟨w, hm2, hdone⟩
        · simp [WorkerState.isDone] at hdone
  exact H ⟨w, hw, hd⟩

/-! ## Claims -/

/-- C1 (counterexample).  The claim states that when shutdown wins the race
against `pf()`, the consumed demand unit is NOT refunded, i.e. the demand
counter after the aborted iteration still has the value it had immediately
after the permit was consumed.  The code refutes this: `sp.forget()` runs
only on the completed-poll path, so the `continue` in the shutdown branch
drops the `SemaphorePermit`, which returns the permit to `polls_requested`.
Concretely: from a one-worker buffer after one `Poll()` call, an
`acquire` (demand drops to 0), then shutdown, then the aborted poll leave
the demand counter at 1, not at 0. -/
theorem c1_no_refund_counterexample :
    Reach 1 (initState Unit Unit 1)
      ⟨1, true, [], [.checkShutdown], 1, 1, 1⟩
    ∧ Step 1 (⟨0, true, [], [.polling], 1, 1, 0⟩ : BufferState Unit Unit)
      ⟨1, true, [], [.checkShutdown], 1, 1, 1⟩
    ∧ (⟨1, true, [], [.checkShutdown], 1, 1, 1⟩ : BufferState Unit Unit).demand ≠
      (⟨0, true, [], [.polling], 1, 1, 0⟩ : BufferState Unit Unit).demand := by
  refine ⟨?_, Step.pollAborted _ 0 rfl rfl, by decide⟩
  have h1 : Step 1 (initState Unit Unit 1)
      (⟨1, false, [], [.checkShutdown], 0, 1, 0⟩ : BufferState Unit Unit) :=
    Step.pollRequest _
  have h2 : Step 1 (⟨1, false, [], [.checkShutdown], 0, 1, 0⟩ : BufferState Unit Unit)
      ⟨1, false, [], [.acquiring], 0, 1, 0⟩ :=
    Step.workerLoop _ 0 rfl rfl
  have h3 : Step 1 (⟨1, false, [], [.acquiring], 0, 1, 0⟩ : BufferState Unit Unit)
      ⟨0, false, [], [.polling], 1, 1, 0⟩ :=
    Step.acquirePoll _ 0 rfl (by decide)
  have h4 : Step 1 (⟨0, false, [], [.polling], 1, 1, 0⟩ : BufferState Unit Unit)
      ⟨0, true, [], [.polling], 1, 1, 0⟩ :=
    Step.notifyShutdown _
  have h5 : Step 1 (⟨0, true, [], [.polling], 1, 1, 0⟩ : BufferState Unit Unit)
      ⟨1, true, [], [.checkShutdown], 1, 1, 1⟩ :=
    Step.pollAborted _ 0 rfl rfl
  exact (((((Relation.ReflTransGen.refl.tail h1).tail h2).tail h3).tail h4).tail h5)

/-- C1 (amended).  When a worker that consumed a demand permit is aborted by
shutdown before its poll completes (it returns from `polling` straight to
the top of the loop), the permit IS refunded: the demand counter ends one
above its value at the moment the permit was consumed (and equal to its
value just before consumption); the discarded-result counter grows by one,
and such an abort happens only with the shutdown flag set. -/
theorem c1_demand_refunded_on_abort (cap : Nat) (s s2 : BufferState E T) (i : Nat)
    (h : Step cap s s2) (hw : s.workers.get? i = some .polling)
    (hc : s2.workers.get? i = some .checkShutdown) :
    s2.demand = s.demand + 1 ∧ s2.aborted = s.aborted + 1 ∧ s.shutdown = true := by
  obtain ⟨hs, rfl⟩ := step_polling_abort_inv h hw hc
  exact ⟨rfl, rfl, hs⟩

theorem c1_demand_refunded_on_abort_witness :
    (⟨1, true, [], [.checkShutdown], 1, 1, 1⟩ : BufferState Unit Unit).demand
      = (⟨0, true, [], [.polling], 1, 1, 0⟩ : BufferState Unit Unit).demand + 1
    ∧ (⟨1, true, [], [.checkShutdown], 1, 1, 1⟩ : BufferState Unit Unit).aborted
      = (⟨0, true, [], [.polling], 1, 1, 0⟩ : BufferState Unit Unit).aborted + 1
    ∧ (⟨0, true, [], [.polling], 1, 1, 0⟩ : BufferState Unit Unit).shutdown = true :=
  c1_demand_refunded_on_abort 1 ⟨0, true, [], [.polling], 1, 1, 0⟩
    ⟨1, true, [], [.checkShutdown], 1, 1, 1⟩ 0
    (Step.pollAborted _ 0 rfl rfl) rfl rfl

/-- C2 (counterexample).  The claim asserts that after N `Poll()` calls at
most N external poll invocations are ever started.  Because an aborted
iteration refunds its permit (see C1), a second worker whose `select!`
takes the `acquire` branch during shutdown can start an extra poll: with
two workers and a single `Poll()` call, a state with two started
invocations is reachable. -/
theorem c2_total_starts_counterexample :
    Reach 1 (initState Unit Unit 2)
      ⟨0, true, [], [.checkShutdown, .polling], 2, 1, 1⟩
    ∧ (⟨0, true, [], [.checkShutdown, .polling], 2, 1, 1⟩ : BufferState Unit Unit).started = 2
    ∧ (⟨0, true, [], [.checkShutdown, .polling], 2, 1, 1⟩ : BufferState Unit Unit).pollCalls = 1 := by
  refine ⟨?_, rfl, rfl⟩
  have h1 : Step 1 (initState Unit Unit 2)
      (⟨1, false, [], [.checkShutdown, .checkShutdown], 0, 1, 0⟩ : BufferState Unit Unit) :=
    Step.pollRequest _
  have h2 : Step 1
      (⟨1, false, [], [.checkShutdown, .checkShutdown], 0, 1, 0⟩ : BufferState Unit Unit)
      ⟨1, false, [], [.acquiring, .checkShutdown], 0, 1, 0⟩ :=
    Step.workerLoop _ 0 rfl rfl
  have h3 : Step 1
      (⟨1, false, [], [.acquiring, .checkShutdown], 0, 1, 0⟩ : BufferState Unit Unit)
      ⟨0, false, [], [.polling, .checkShutdown], 1, 1, 0⟩ :=
    Step.acquirePoll _ 0 rfl (by decide)
  have h4 : Step 1
      (⟨0, false, [], [.polling, .checkShutdown], 1, 1, 0⟩ : BufferState Unit Unit)
      ⟨0, false, [], [.polling, .acquiring], 1, 1, 0⟩ :=
    Step.workerLoop _ 1 rfl rfl
  have h5 : Step 1
      (⟨0, false, [], [.polling, .acquiring], 1, 1, 0⟩ : BufferState Unit Unit)
      ⟨0, true, [], [.polling, .acquiring], 1, 1, 0⟩ :=
    Step.notifyShutdown _
  have h6 : Step 1
      (⟨0, true, [], [.polling, .acquiring], 1, 1, 0⟩ : BufferState Unit Unit)
      ⟨1, true, [], [.checkShutdown, .acquiring], 1, 1, 1⟩ :=
    Step.pollAborted _ 0 rfl rfl
  have h7 : Step 1
      (⟨1, true, [], [.checkShutdown, .acquiring], 1, 1, 1⟩ : BufferState Unit Unit)
      ⟨0, true, [], [.checkShutdown, .polling], 2, 1, 1⟩ :=
    Step.acquirePoll _ 1 rfl (by decide)
  exact (((((((Relation.ReflTransGen.refl.tail h1).tail h2).tail h3).tail h4).tail
    h5).tail h6).tail h7)

/-- C2 (amended).  Demand gating: a poll starts only by consuming a demand
permit and each `Poll()` adds exactly one (built into `Step`).  Hence, in
any reachable state in which shutdown has never been signalled, the number
of poll invocations ever started is at most the number of `Poll()` calls;
if `Poll()` was never called, no invocation was ever started (in every
execution, shutdown or not); and with `concurrentPollers = c` at most `c`
invocations are in flight at any instant (so with `c = 1`, at most one).
During shutdown the permit refund of an aborted iteration can fund one
extra start per abort, which is why the unconditional "at most N total"
of the claim fails. -/
theorem c2_demand_gating (c cap : Nat) (s : BufferState E T)
    (h : Reach cap (initState E T c) s) :
    (s.shutdown = false → s.started ≤ s.pollCalls)
    ∧ (s.pollCalls = 0 → s.started = 0)
    ∧ inFlight s ≤ c := by
  refine ⟨fun hs => ?_, fun hp => (reach_pollCalls_zero h hp).2.1, ?_⟩
  · have h1 := reach_no_shutdown_balance h hs
    omega
  · have hlen := reach_workers_length h
    calc inFlight s ≤ s.workers.length := List.countP_le_length _
    _ = c := hlen

theorem c2_demand_gating_witness :
    ((initState Unit Unit 1).shutdown = false →
      (initState Unit Unit 1).started ≤ (initState Unit Unit 1).pollCalls)
    ∧ ((initState Unit Unit 1).pollCalls = 0 → (initState Unit Unit 1).started = 0)
    ∧ inFlight (initState Unit Unit 1) ≤ 1 :=
  c2_demand_gating 1 1 (initState Unit Unit 1) Relation.ReflTransGen.refl

/-- C3.  `poll` returns `Some(outcome)` exactly when a buffered result is
dequeued and `None` exactly when the result channel is both drained (no
buffered result remains) and closed (every producing worker task has
exited): with a buffered head it dequeues and returns it; on a closed and
drained channel the receive resolves at once with the terminal `None`
(it does not suspend); conversely `None` is returned only with the queue
drained and every producer exited; and, for a buffer constructed with at
least one worker, that terminal `None` can only occur after shutdown was
signalled. -/
theorem c3_poll_terminal_semantics (c cap : Nat) (s st : BufferState E T) :
    (∀ r rest, s.queue = r :: rest →
        bufferPoll s = some (some r, { addPermit s with queue := rest }))
    ∧ (s.queue = [] → allWorkersDone s = true →
        bufferPoll s = some (none, addPermit s))
    ∧ (∀ res, bufferPoll s = some (none, res) →
        s.queue = [] ∧ allWorkersDone s = true)
    ∧ (Reach cap (initState E T c) s → 0 < c →
        bufferPoll s = some (none, st) → s.shutdown = true) := by
  have hrecv : ∀ res, bufferPoll s = some (none, res) →
      s.queue = [] ∧ allWorkersDone s = true := by
    intro res h2
    unfold bufferPoll tryRecv at h2
    split at h2
    · simp at h2
    · rename_i hq
      split at h2
      · rename_i hdone
        exact ⟨hq, hdone⟩
      · simp at h2
  refine ⟨?_, ?_, hrecv, ?_⟩
  · intro r rest hq
    simp [bufferPoll, tryRecv, addPermit, hq]
  · intro hq hdone
    have hq2 : (addPermit s).queue = [] := hq
    have hw2 : allWorkersDone (addPermit s) = true := hdone
    simp [bufferPoll, tryRecv, hq2, hw2]
  · intro hr hc h3
    obtain ⟨hq, hdone⟩ := hrecv st h3
    have hlen : s.workers.length = c := reach_workers_length hr
    have hpos : 0 < s.workers.length := by omega
    obtain ⟨w, hw⟩ := List.exists_mem_of_length_pos hpos
    exact reach_done_shutdown hr hw (List.all_eq_true.mp hdone w hw)

theorem c3_poll_terminal_semantics_witness :
    bufferPoll (⟨0, true, [PollOutcome.ok ()], [.done], 1, 1, 0⟩ : BufferState Unit Unit)
        = some (some (.ok ()), ⟨1, true, [], [.done], 1, 2, 0⟩)
    ∧ bufferPoll (⟨0, true, [], [.done], 1, 1, 0⟩ : BufferState Unit Unit)
        = some (none, addPermit (⟨0, true, [], [.done], 1, 1, 0⟩ : BufferState Unit Unit))
    ∧ ((⟨0, true, [], [.done], 1, 1, 0⟩ : BufferState Unit Unit).queue = []
        ∧ allWorkersDone (⟨0, true, [], [.done], 1, 1, 0⟩ : BufferState Unit Unit) = true) :=
  ⟨(c3_poll_terminal_semantics 1 1
      (⟨0, true, [PollOutcome.ok ()], [.done], 1, 1, 0⟩ : BufferState Unit Unit)
      (initState Unit Unit 1)).1 (.ok ()) [] rfl,
   (c3_poll_terminal_semantics 1 1
      (⟨0, true, [], [.done], 1, 1, 0⟩ : BufferState Unit Unit)
      (initState Unit Unit 1)).2.1 rfl rfl,
   (c3_poll_terminal_semantics 1 1
      (⟨0, true, [], [.done], 1, 1, 0⟩ : BufferState Unit Unit)
      (initState Unit Unit 1)).2.2.1 _ rfl⟩

/-- C4.  `shutdown` first sends `true` on the watch channel (a step that is
always available), the flag is monotone along every execution (it is only
ever written with `true`), and the join-handle drain condition holds
exactly when every worker task has exited, so when `shutdown` returns no
worker is still running. -/
theorem c4_shutdown_drains (cap : Nat) (s s2 : BufferState E T) :
    (Step cap s { s with shutdown := true })
    ∧ (Reach cap s s2 → s.shutdown = true → s2.shutdown = true)
    ∧ (allWorkersDone s = true → ∀ w ∈ s.workers, w = WorkerState.done) := by
  refine ⟨Step.notifyShutdown s, fun h hs => ?_, fun hall w hw => ?_⟩
  · exact reach_invariant (P := fun t => t.shutdown = true) h hs
      (fun a b hP hstep => hstep.shutdown_mono hP)
  · have h1 := List.all_eq_true.mp hall w hw
    cases w
    case done => rfl
    all_goals simp [WorkerState.isDone] at h1

theorem c4_shutdown_drains_witness :
    Step 1 (⟨0, true, [], [.done], 0, 0, 0⟩ : BufferState Unit Unit)
      ⟨0, true, [], [.done], 0, 0, 0⟩
    ∧ (⟨0, true, [], [.done], 0, 0, 0⟩ : BufferState Unit Unit).shutdown = true
    ∧ ∀ w ∈ ([.done] : List (WorkerState Unit Unit)), w = WorkerState.done := by
  have H := c4_shutdown_drains 1 (⟨0, true, [], [.done], 0, 0, 0⟩ : BufferState Unit Unit)
    ⟨0, true, [], [.done], 0, 0, 0⟩
  exact ⟨H.1, H.2.1 Relation.ReflTransGen.refl rfl, H.2.2 rfl⟩

/-- C5.  Bounded buffering: in every reachable state the result queue holds
at most `cap` results; a worker leaves its `tx.send(r).await` suspension
only when the queue held strictly fewer than `cap` results, and then `r`
is enqueued (never dropped); and a blocked sender does not hinder other
workers — any worker waiting on demand can still proceed whenever a
permit is available, whatever the rest of the pool is doing. -/
theorem c5_bounded_buffering (c cap : Nat) (s s2 : BufferState E T) (i : Nat)
    (r : PollOutcome E T) :
    (Reach cap (initState E T c) s → s.queue.length ≤ cap)
    ∧ (Step cap s s2 → s.workers.get? i = some (.sending r) →
        s2.workers.get? i ≠ some (.sending r) →
        s.queue.length < cap ∧ s2.queue = s.queue ++ [r])
    ∧ (∀ j, s.workers.get? j = some .acquiring → 0 < s.demand →
        ∃ s3, Step cap s s3 ∧ s3.workers.get? j = some .polling) := by
  refine ⟨reach_queue_le, fun hstep hw hch => ?_, fun j hj hd => ?_⟩
  · obtain ⟨h1, rfl⟩ := step_sending_inv hstep hw hch
    exact ⟨h1, rfl⟩
  · refine ⟨_, Step.acquirePoll s j hj hd, ?_⟩
    rcases List.get?_eq_some.mp hj with ⟨hlt, _⟩
    exact List.get?_set_eq_of_lt _ hlt

theorem c5_bounded_buffering_witness :
    (initState Unit Unit 1).queue.length ≤ 1
    ∧ ((⟨0, false, [], [.sending (.ok ())], 1, 1, 0⟩ : BufferState Unit Unit).queue.length < 1
        ∧ (⟨0, false, [PollOutcome.ok ()], [.checkShutdown], 1, 1, 0⟩
              : BufferState Unit Unit).queue
            = (⟨0, false, [], [.sending (.ok ())], 1, 1, 0⟩
                : BufferState Unit Unit).queue ++ [.ok ()])
    ∧ (∃ s3, Step 1 (⟨1, false, [], [.acquiring], 0, 1, 0⟩ : BufferState Unit Unit) s3
        ∧ s3.workers.get? 0 = some .polling) := by
  refine ⟨(c5_bounded_buffering 1 1 (initState Unit Unit 1)
      (initState Unit Unit 1) 0 (.ok ())).1 Relation.ReflTransGen.refl, ?_, ?_⟩
  · exact (c5_bounded_buffering 1 1
      (⟨0, false, [], [.sending (.ok ())], 1, 1, 0⟩ : BufferState Unit Unit)
      (⟨0, false, [PollOutcome.ok ()], [.checkShutdown], 1, 1, 0⟩ : BufferState Unit Unit)
      0 (.ok ())).2.1 (Step.sendOk _ 0 _ rfl (by decide)) rfl (by decide)
  · obtain ⟨s3, h1, h2⟩ := (c5_bounded_buffering 1 1
      (⟨1, false, [], [.acquiring], 0, 1, 0⟩ : BufferState Unit Unit)
      (⟨1, false, [], [.acquiring], 0, 1, 0⟩ : BufferState Unit Unit)
      0 (.ok ())).2.2 0 rfl (by decide)
    exact ⟨s3, h1, h2⟩

/-- C6 (counterexample).  The claim asserts construction succeeds for every
`bufferSize ≥ 0`, but `LongPollBuffer::new` calls
`mpsc::channel(buffer_size)`, which panics when the capacity is `0`. -/
theorem c6_zero_buffer_counterexample :
    newLongPollBuffer Unit Unit 1 0 = none := rfl

/-- C6 (amended).  For every `concurrentPollers ≥ 0` and every
`bufferSize ≥ 1`, construction succeeds without panicking, spawning exactly
`concurrentPollers` worker tasks, each starting at the top of its loop. -/
theorem c6_construction_succeeds (c b : Nat) (hb : b ≠ 0) :
    ∃ s0 : BufferState E T, newLongPollBuffer E T c b = some s0
      ∧ s0.workers.length = c
      ∧ ∀ w ∈ s0.workers, w = WorkerState.checkShutdown := by
  refine ⟨initState E T c, ?_, ?_, ?_⟩
  · simp [newLongPollBuffer, hb]
  · simp [initState]
  · intro w hw
    exact List.eq_of_mem_replicate hw

theorem c6_construction_succeeds_witness :
    ∃ s0 : BufferState Unit Unit, newLongPollBuffer Unit Unit 3 2 = some s0
      ∧ s0.workers.length = 3
      ∧ ∀ w ∈ s0.workers, w = WorkerState.checkShutdown :=
  c6_construction_succeeds 3 2 (by decide)

/-- C7.  Racing correctness: with both children present, `poll` polls both
children's futures (each adds its demand permit) and, when the sticky
child's receive resolves strictly first, returns the sticky result.  The
normal child's outstanding call is not lost: its permit stays in its own
demand counter and its queue is untouched, and from any state where its
worker waits for demand there is a continuation in which the worker
consumes that very permit, completes the background poll, buffers the
outcome, and a subsequent `poll` on the normal child alone dequeues it. -/
theorem c7_racing_correctness (cap : Nat) (n st st2 : BufferState E T)
    (r : PollOutcome E T)
    (hst : tryRecv (addPermit st) = some (some r, st2)) :
    wtpPoll ⟨n, some st⟩ true = some (some r, ⟨addPermit n, some st2⟩)
    ∧ (addPermit n).demand = n.demand + 1
    ∧ (addPermit n).queue = n.queue
    ∧ (n.workers = [.acquiring] → n.shutdown = false → n.queue = [] → 0 < cap →
        ∀ rN : PollOutcome E T, ∃ sN s3,
          Reach cap (addPermit n) sN ∧ bufferPoll sN = some (some rN, s3)) := by
  refine ⟨?_, rfl, rfl, ?_⟩
  · simp [wtpPoll, hst]
  · intro hw hs hq hcap rN
    obtain ⟨nd, nsh, nq, nw, nst, npc, nab⟩ := n
    simp only at hw hs hq
    subst hw hs hq
    refine ⟨⟨nd + 1 - 1, false, [rN], [.checkShutdown], nst + 1, npc + 1, nab⟩,
            ⟨nd + 1 - 1 + 1, false, [], [.checkShutdown], nst + 1, npc + 1 + 1, nab⟩,
            ?_, rfl⟩
    have h1 : Step cap
        (addPermit (⟨nd, false, [], [.acquiring], nst, npc, nab⟩ : BufferState E T))
        ⟨nd + 1 - 1, false, [], [.polling], nst + 1, npc + 1, nab⟩ :=
      Step.acquirePoll _ 0 rfl (Nat.succ_pos nd)
    have h2 : Step cap
        (⟨nd + 1 - 1, false, [], [.polling], nst + 1, npc + 1, nab⟩ : BufferState E T)
        ⟨nd + 1 - 1, false, [], [.sending rN], nst + 1, npc + 1, nab⟩ :=
      Step.pollComplete _ 0 rN rfl
    have h3 : Step cap
        (⟨nd + 1 - 1, false, [], [.sending rN], nst + 1, npc + 1, nab⟩ : BufferState E T)
        ⟨nd + 1 - 1, false, [rN], [.checkShutdown], nst + 1, npc + 1, nab⟩ :=
      Step.sendOk _ 0 rN rfl hcap
    exact ((Relation.ReflTransGen.refl.tail h1).tail h2).tail h3

theorem c7_racing_correctness_witness :
    wtpPoll (⟨⟨0, false, [], [.acquiring], 0, 0, 0⟩,
             some ⟨0, false, [PollOutcome.ok ()], [.done], 1, 1, 0⟩⟩
               : WorkflowTaskPoller Unit Unit) true
      = some (some (.ok ()),
          ⟨⟨1, false, [], [.acquiring], 0, 1, 0⟩, some ⟨1, false, [], [.done], 1, 2, 0⟩⟩)
    ∧ (∃ sN s3,
        Reach 1 ((⟨1, false, [], [.acquiring], 0, 1, 0⟩ : BufferState Unit Unit)) sN
        ∧ bufferPoll sN = some (some (.err ()), s3)) := by
  have H := c7_racing_correctness 1
    (⟨0, false, [], [.acquiring], 0, 0, 0⟩ : BufferState Unit Unit)
    ⟨0, false, [PollOutcome.ok ()], [.done], 1, 1, 0⟩
    ⟨1, false, [], [.done], 1, 2, 0⟩ (.ok ()) rfl
  exact ⟨H.1, H.2.2.2 rfl rfl rfl (by decide) (.err ())⟩

/-- C8.  Error transparency: a failed poll (`Err` outcome) takes exactly the
same path as a success — the worker moves from `polling` to delivering the
error, the `send` appends the error verbatim to the queue while the worker
returns to the top of its loop (it neither dies nor starts a retry: the
started-poll counter is unchanged by the delivery), and a `poll` that finds
the error at the head of the queue returns it verbatim. -/
theorem c8_error_transparency (cap : Nat) (s s2 : BufferState E T) (i : Nat) (e : E) :
    (s.workers.get? i = some .polling →
      Step cap s { s with workers := s.workers.set i (.sending (.err e)) })
    ∧ (Step cap s s2 → s.workers.get? i = some (.sending (.err e)) →
        s2.workers.get? i ≠ some (.sending (.err e)) →
        s2.queue = s.queue ++ [.err e] ∧ s2.workers.get? i = some .checkShutdown
        ∧ s2.started = s.started ∧ s2.shutdown = s.shutdown)
    ∧ (∀ rest, s.queue = PollOutcome.err e :: rest →
        bufferPoll s = some (some (.err e), { addPermit s with queue := rest })) := by
  refine ⟨fun hw => Step.pollComplete s i (.err e) hw,
          fun hstep hw hch => ?_, fun rest hq => ?_⟩
  · obtain ⟨h1, rfl⟩ := step_sending_inv hstep hw hch
    refine ⟨rfl, ?_, rfl, rfl⟩
    rcases List.get?_eq_some.mp hw with ⟨hlt, _⟩
    exact List.get?_set_eq_of_lt _ hlt
  · simp [bufferPoll, tryRecv, addPermit, hq]

theorem c8_error_transparency_witness :
    Step 1 (⟨0, false, [], [.polling], 1, 1, 0⟩ : BufferState Unit Unit)
      ⟨0, false, [], [.sending (.err ())], 1, 1, 0⟩
    ∧ ((⟨0, false, [PollOutcome.err ()], [.checkShutdown], 1, 1, 0⟩
          : BufferState Unit Unit).queue
        = (⟨0, false, [], [.sending (.err ())], 1, 1, 0⟩
            : BufferState Unit Unit).queue ++ [.err ()]
      ∧ (⟨0, false, [PollOutcome.err ()], [.checkShutdown], 1, 1, 0⟩
          : BufferState Unit Unit).workers.get? 0 = some .checkShutdown
      ∧ (⟨0, false, [PollOutcome.err ()], [.checkShutdown], 1, 1, 0⟩
          : BufferState Unit Unit).started
        = (⟨0, false, [], [.sending (.err ())], 1, 1, 0⟩
            : BufferState Unit Unit).started
      ∧ (⟨0, false, [PollOutcome.err ()], [.checkShutdown], 1, 1, 0⟩
          : BufferState Unit Unit).shutdown
        = (⟨0, false, [], [.sending (.err ())], 1, 1, 0⟩
            : BufferState Unit Unit).shutdown)
    ∧ bufferPoll (⟨0, false, [PollOutcome.err ()], [.checkShutdown], 1, 1, 0⟩
          : BufferState Unit Unit)
        = some (some (.err ()), ⟨1, false, [], [.checkShutdown], 1, 2, 0⟩) := by
  refine ⟨(c8_error_transparency 1
      (⟨0, false, [], [.polling], 1, 1, 0⟩ : BufferState Unit Unit)
      (⟨0, false, [], [.polling], 1, 1, 0⟩ : BufferState Unit Unit) 0 ()).1 rfl, ?_, ?_⟩
  · exact (c8_error_transparency 1
      (⟨0, false, [], [.sending (.err ())], 1, 1, 0⟩ : BufferState Unit Unit)
      (⟨0, false, [PollOutcome.err ()], [.checkShutdown], 1, 1, 0⟩ : BufferState Unit Unit)
      0 ()).2.1 (Step.sendOk _ 0 _ rfl (by decide)) rfl (by decide)
  · exact (c8_error_transparency 1
      (⟨0, false, [PollOutcome.err ()], [.checkShutdown], 1, 1, 0⟩ : BufferState Unit Unit)
      (⟨0, false, [PollOutcome.err ()], [.checkShutdown], 1, 1, 0⟩ : BufferState Unit Unit)
      0 ()).2.2 [] rfl

/-- C9.  Degenerate composite: without a sticky child, `poll` is exactly the
normal child's `poll` (same returned outcome, same state evolution, sticky
side untouched), `notify_shutdown` acts only on the normal child, and the
shutdown-drain condition is exactly the normal child's. -/
theorem c9_degenerate_composite (n : BufferState E T) (b : Bool) :
    wtpPoll ⟨n, none⟩ b
        = (bufferPoll n).map (fun p => (p.1, ⟨p.2, none⟩))
    ∧ wtpNotifyShutdown ⟨n, none⟩ = ⟨{ n with shutdown := true }, none⟩
    ∧ wtpShutdownComplete ⟨n, none⟩ = allWorkersDone n := by
  refine ⟨?_, rfl, ?_⟩
  · rcases h : bufferPoll n with _ | ⟨res, n2⟩ <;> simp [wtpPoll, h]
  · simp [wtpShutdownComplete]

/-- C10.  With `concurrentPollers = 0` no worker (hence no sender clone of
`tx`) exists, so the result channel is closed from the start: in every
reachable state, `poll` still adds its demand permit but the receive
immediately returns the terminal `None` (it never suspends), and the
external poll function is never invoked. -/
theorem c10_zero_workers (b cap : Nat) (s0 s : BufferState E T)
    (hn : newLongPollBuffer E T 0 b = some s0) (h : Reach cap s0 s) :
    bufferPoll s = some (none, addPermit s)
    ∧ s.started = 0
    ∧ (addPermit s).demand = s.demand + 1 := by
  have hs0 : s0 = initState E T 0 := by
    unfold newLongPollBuffer at hn
    split at hn
    · cases hn
    · exact (Option.some.inj hn).symm
  subst hs0
  have H : s.workers = [] ∧ s.queue = [] ∧ s.started = 0 := by
    refine reach_invariant
      (P := fun t => t.workers = [] ∧ t.queue = [] ∧ t.started = 0) h ⟨rfl, rfl, rfl⟩ ?_
    intro a c hP hstep
    obtain ⟨h1, h2, h3⟩ := hP
    cases hstep with
    | pollRequest => exact ⟨h1, h2, h3⟩
    | notifyShutdown => exact ⟨h1, h2, h3⟩
    | workerExit j hj hs2 => rw [h1] at hj; simp at hj
    | workerLoop j hj hs2 => rw [h1] at hj; simp at hj
    | acquirePoll j hj hd => rw [h1] at hj; simp at hj
    | acquireShutdown j hj hs2 => rw [h1] at hj; simp at hj
    | pollComplete j r hj => rw [h1] at hj; simp at hj
    | pollAborted j hj hs2 => rw [h1] at hj; simp at hj
    | sendOk j r hj hq => rw [h1] at hj; simp at hj
  obtain ⟨h1, h2, h3⟩ := H
  refine ⟨?_, h3, rfl⟩
  have hq : (addPermit s).queue = [] := h2
  have hw : allWorkersDone (addPermit s) = true := by
    simp [allWorkersDone, addPermit, h1]
  simp [bufferPoll, tryRecv, hq, hw]

theorem c10_zero_workers_witness :
    bufferPoll (initState Unit Unit 0) = some (none, addPermit (initState Unit Unit 0))
    ∧ (initState Unit Unit 0).started = 0
    ∧ (addPermit (initState Unit Unit 0)).demand = (initState Unit Unit 0).demand + 1 :=
  c10_zero_workers 1 1 (initState Unit Unit 0) (initState Unit Unit 0) rfl
    Relation.ReflTransGen.refl

end PollBuffer
